import Mathlib

/-!
Verification of the Worm Python policy-enforcement layer.

Shallow embedding of the enforcement components of the repository:
the import restrictions (`src/worm/hooks/import_restrictions.py`),
the restricted subprocess wrappers (`src/worm/modules/restricted_subprocess.py`),
the filesystem sandbox (`src/worm/security/filesystem_sandbox.py`),
the resource governor (`src/worm/security/resource_limits.py`),
the audit log (`src/worm/security/audit_log.py`),
and the IoC monitor (`tools/ioc_monitor.py`).
-/

namespace Worm

/-! ## Capability Gate: import restrictions (import_restrictions.py) -/

/-- `BLOCKED_MODULES` from `import_restrictions.py` (lines 14-35). -/
def BLOCKED_MODULES : List String :=
  ["socket", "socketserver", "http", "http.client", "http.server",
   "urllib", "urllib.request", "urllib.parse", "urllib3", "requests",
   "aiohttp", "httpx", "ftplib", "poplib", "imaplib", "smtplib",
   "telnetlib", "xmlrpc", "xmlrpc.client", "xmlrpc.server"]

/-- `WormImportError`: the distinguishable error raised on a blocked import.
The source formats the offending module name into the message; we model the
error as carrying that name. -/
structure WormImportError where
  module : String
  deriving DecidableEq, Repr

/-- `NetworkModuleBlocker.find_spec` (lines 57-77): raise `WormImportError`
when `fullname` is itself blocked or starts with a blocked name plus a dot;
otherwise return `None` (here `.ok ()`), letting normal import proceed. -/
def find_spec (fullname : String) : Except WormImportError Unit :=
  if fullname ∈ BLOCKED_MODULES then
    .error ⟨fullname⟩
  else if BLOCKED_MODULES.any (fun blocked => (blocked ++ ".").isPrefixOf fullname) then
    .error ⟨fullname⟩
  else
    .ok ()

/-- `is_module_allowed` (lines 126-135). -/
def is_module_allowed (module_name : String) : Bool :=
  if module_name ∈ BLOCKED_MODULES then
    false
  else if BLOCKED_MODULES.any (fun blocked => (blocked ++ ".").isPrefixOf module_name) then
    false
  else
    true

/-- `find_spec` instrumented with the audit-log file state.  The source body
of `NetworkModuleBlocker.find_spec` performs no audit-log write on any path
(it only raises or returns), so the log passes through every branch
unchanged. -/
def find_spec_with_audit (log : List String) (fullname : String) :
    List String × Except WormImportError Unit :=
  if fullname ∈ BLOCKED_MODULES then
    (log, .error ⟨fullname⟩)
  else if BLOCKED_MODULES.any (fun blocked => (blocked ++ ".").isPrefixOf fullname) then
    (log, .error ⟨fullname⟩)
  else
    (log, .ok ())

/-! ## Capability Gate: restricted subprocess (restricted_subprocess.py) -/

/-- `BLOCKED_COMMANDS` (lines 13-18). -/
def BLOCKED_COMMANDS : List String :=
  ["curl", "wget", "nc", "netcat", "telnet", "ssh", "scp", "sftp",
   "ftp", "ping", "nmap", "nslookup", "dig", "host", "traceroute",
   "tracert", "route", "netstat", "ss", "ip", "ifconfig", "tcpdump",
   "wireshark", "iptables", "firewall-cmd", "ufw"]

/-- `BLOCKED_PATTERNS` (lines 21-24). -/
def BLOCKED_PATTERNS : List String :=
  ["://", "http", "https", "ftp", "ssh"]

/-- `NetworkCommandError` with the triggering reason. -/
inductive NetworkCommandError where
  | blockedCommand (base : String)
  | blockedPattern (pat : String)
  deriving DecidableEq, Repr

/-- Python `pat in s` (substring containment), on character lists. -/
def substrAux (pat : List Char) : List Char → Bool
  | [] => pat.isEmpty
  | c :: rest => pat.isPrefixOf (c :: rest) || substrAux pat rest

/-- Python `pat in s` on strings. -/
def str_contains (s pat : String) : Bool :=
  substrAux pat.data s.data

/-- Python `s.lower()`, character-wise. -/
def py_lower (s : String) : String :=
  String.mk (s.data.map Char.toLower)

/-- Python `s.split('/')`, accumulator form. -/
def splitSlashAux : List Char → List Char → List (List Char)
  | [], acc => [acc.reverse]
  | c :: rest, acc =>
    if c = '/' then acc.reverse :: splitSlashAux rest [] else splitSlashAux rest (c :: acc)

/-- Python `s.split('/')[-1]`: the final path segment. -/
def last_path_segment (s : String) : String :=
  String.mk ((splitSlashAux s.data []).getLastD [])

/-- `_check_command_safety` (lines 32-67), for a command given as a list
(`argv`): join with spaces, take the final path segment of the first
element as the base command; deny when the base command is in
`BLOCKED_COMMANDS`, then when any blocked pattern occurs in the lower-cased
joined string. -/
def check_command_safety (cmd : List String) : Except NetworkCommandError Unit :=
  let cmd_str := String.intercalate " " cmd
  let base_cmd := match cmd with
    | [] => ""
    | c :: _ => last_path_segment c
  if base_cmd ∈ BLOCKED_COMMANDS then
    .error (.blockedCommand base_cmd)
  else
    match BLOCKED_PATTERNS.find? (fun pat => str_contains (py_lower cmd_str) pat) with
    | some pat => .error (.blockedPattern pat)
    | none => .ok ()

/-- `run` (lines 71-75): `args` is the tuple of positional arguments and
`kw` the `args=`-style keyword command; the safety check runs only when a
positional argument exists, and the real `subprocess.run` result `real`
is returned unmodified. -/
def run {ρ : Type} (args : List (List String)) (kw : Option (List String)) (real : ρ) :
    Except NetworkCommandError ρ :=
  match args with
  | [] => .ok real
  | cmd :: _ =>
    match check_command_safety cmd with
    | .error e => .error e
    | .ok _ => .ok real

/-- `call` (lines 78-82): same wrapper body as `run`. -/
def call {ρ : Type} (args : List (List String)) (kw : Option (List String)) (real : ρ) :
    Except NetworkCommandError ρ :=
  match args with
  | [] => .ok real
  | cmd :: _ =>
    match check_command_safety cmd with
    | .error e => .error e
    | .ok _ => .ok real

/-- `check_call` (lines 85-89): same wrapper body as `run`. -/
def check_call {ρ : Type} (args : List (List String)) (kw : Option (List String)) (real : ρ) :
    Except NetworkCommandError ρ :=
  match args with
  | [] => .ok real
  | cmd :: _ =>
    match check_command_safety cmd with
    | .error e => .error e
    | .ok _ => .ok real

/-- `check_output` (lines 92-96): same wrapper body as `run`. -/
def check_output {ρ : Type} (args : List (List String)) (kw : Option (List String)) (real : ρ) :
    Except NetworkCommandError ρ :=
  match args with
  | [] => .ok real
  | cmd :: _ =>
    match check_command_safety cmd with
    | .error e => .error e
    | .ok _ => .ok real

/-- `Popen` (lines 99-103): same wrapper body as `run`. -/
def Popen {ρ : Type} (args : List (List String)) (kw : Option (List String)) (real : ρ) :
    Except NetworkCommandError ρ :=
  match args with
  | [] => .ok real
  | cmd :: _ =>
    match check_command_safety cmd with
    | .error e => .error e
    | .ok _ => .ok real

/-! ## Filesystem Access Controller (filesystem_sandbox.py)

A canonical path (the result of `Path(p).resolve()`) is modelled as its
list of segments; `Path.resolve` itself is an OS operation and is passed
in as a function `resolve : String → Option CanonPath`, `none` modelling a
raised exception during resolution. `filepath.relative_to(root)` succeeds
exactly when `root`'s segments are a prefix of `filepath`'s segments. -/

abbrev CanonPath := List String

/-- The sandbox modes of `FilesystemSandbox` (`'disabled'`, `'read_only'`,
`'whitelist'`, `'blacklist'`). -/
inductive SandboxMode where
  | disabled
  | read_only
  | whitelist
  | blacklist
  deriving DecidableEq, Repr

/-- `FilesystemSandbox.__init__` state (lines 29-42): mode plus resolved
allowed/denied roots. -/
structure FilesystemSandbox where
  mode : SandboxMode
  allowed_paths : List CanonPath
  denied_paths : List CanonPath

/-- `filepath.relative_to(root)` succeeds iff `root` is a segment prefix of
`filepath` (both already canonical). -/
def relative_to_ok (filepath root : CanonPath) : Bool :=
  root.isPrefixOf filepath

/-- `FilesystemSandbox._is_path_allowed` (lines 44-77): resolve the path,
denying on resolution failure; then blacklist denies paths under a denied
root, whitelist allows exactly paths under an allowed root, and read-only
and disabled modes allow. -/
def is_path_allowed (sb : FilesystemSandbox) (resolve : String → Option CanonPath)
    (filepath : String) : Bool :=
  match resolve filepath with
  | none => false
  | some resolved =>
    match sb.mode with
    | .blacklist =>
      if sb.denied_paths.any (fun denied => relative_to_ok resolved denied) then false
      else true
    | .whitelist =>
      if sb.allowed_paths.any (fun allowed => relative_to_ok resolved allowed) then true
      else false
    | .read_only => true
    | .disabled => true

/-- `FilesystemAccessError`, distinguishing the two denial messages of
`_sandboxed_open`. -/
inductive FilesystemAccessError where
  | readOnlyWrite (file : String)
  | notAllowed (file : String)
  deriving DecidableEq, Repr

/-- The result of `self.original_open(file, mode, ...)`. -/
structure Handle where
  file : String
  mode : String
  deriving DecidableEq, Repr

/-- `FilesystemSandbox._sandboxed_open` (lines 79-99): compute `is_write`
from the mode flags, deny writes in read-only mode, then deny paths that
fail `_is_path_allowed`; otherwise call the original `open`. -/
def sandboxed_open (sb : FilesystemSandbox) (resolve : String → Option CanonPath)
    (file mode : String) : Except FilesystemAccessError Handle :=
  let is_write := ["w", "a", "x", "+"].any (fun m => str_contains mode m)
  if sb.mode = .read_only ∧ is_write then
    .error (.readOnlyWrite file)
  else if ¬ is_path_allowed sb resolve file then
    .error (.notAllowed file)
  else
    .ok ⟨file, mode⟩

/-! ## Integrity Monitor (tools/ioc_monitor.py) -/

/-- Python `line.strip()`: drop whitespace from both ends. -/
def pyStrip (s : String) : String :=
  String.mk (((s.data.dropWhile Char.isWhitespace).reverse.dropWhile Char.isWhitespace).reverse)

/-- A word character for the regex `\b` boundary: `[a-zA-Z0-9_]`. -/
def isWordChar (c : Char) : Bool :=
  c.isAlphanum || c = '_'

/-- A whitespace character for the regex class `\s`. -/
def isSpaceChar (c : Char) : Bool :=
  c = ' ' || c = '\t' || c = '\n' || c = '\x0b' || c = '\x0c' || c = '\r'

/-- Skip a (possibly empty) run of `\s` characters. -/
def skipSpaceChars : List Char → List Char
  | [] => []
  | c :: rest => if isSpaceChar c then skipSpaceChars rest else c :: rest

/-- Does `PRINT_PATTERN`'s body `print\s*\(` match starting exactly here? -/
def printMatchHere : List Char → Bool
  | 'p' :: 'r' :: 'i' :: 'n' :: 't' :: rest =>
    match skipSpaceChars rest with
    | '(' :: _ => true
    | _ => false
  | _ => false

/-- Scan a suffix for a match of `\bprint\s*\(`, given whether the
character just before the suffix is a word character (`false` at the start
of the line, where `\b` holds before a word character). -/
def printSearchAux (prevIsWord : Bool) : List Char → Bool
  | [] => false
  | c :: rest =>
    (!prevIsWord && printMatchHere (c :: rest)) || printSearchAux (isWordChar c) rest

/-- `IoCMonitor.PRINT_PATTERN.search(line)` (line 22): does
`\bprint\s*\(` match anywhere in the line? -/
def print_pattern_search (line : String) : Bool :=
  printSearchAux false line.data

/-- An `IoCFinding` as built by `scan_file` (lines 63-69). -/
structure IoCFinding where
  type : String
  file : String
  line : Nat
  content : String
  severity : String
  deriving DecidableEq, Repr

/-- `IoCMonitor.scan_file` (lines 46-81) on the file's decoded text,
given as its list of lines: enumerate lines from 1 and emit one
`CRITICAL` finding per line matched by `PRINT_PATTERN`. -/
def scan_lines (file_path : String) (lines : List String) : List IoCFinding :=
  lines.enum.filterMap (fun p =>
    if print_pattern_search p.2 then
      some ⟨"PRINT_STATEMENT_IOC", file_path, p.1 + 1, pyStrip p.2, "CRITICAL"⟩
    else
      none)

/-! ## Resource Governor (resource_limits.py)

`resource.setrlimit` is a platform facility outside the repository; whether
it succeeds for a given resource is modelled by a parameter
`ok : Res → Bool` (an appropriate `OSError`/`ValueError` branch is taken
when it refuses).  The kernel rlimit table is the state; `none` models
`RLIM_INFINITY`. -/

/-- The four resources the governor installs ceilings for. -/
inductive Res where
  | cpu
  | addressSpace
  | fsize
  | nofile
  deriving DecidableEq, Repr

/-- The process rlimit table (soft limits; `none` = `RLIM_INFINITY`),
plus the pending `signal.alarm` seconds used by `set_cpu_limit`'s
fallback path. -/
structure RLimitState where
  cpu : Option Nat
  addressSpace : Option Nat
  fsize : Option Nat
  nofile : Option Nat
  alarm : Option Nat
  deriving DecidableEq, Repr

/-- `set_cpu_limit` (lines 18-49): reject non-positive values; set
`RLIMIT_CPU` when the platform accepts, otherwise fall back to
`signal.alarm` (which leaves the rlimit untouched) and still report
success. -/
def set_cpu_limit (ok : Res → Bool) (seconds : Int) (st : RLimitState) : Bool × RLimitState :=
  if seconds ≤ 0 then (false, st)
  else if ok .cpu then (true, { st with cpu := some seconds.toNat })
  else (true, { st with alarm := some seconds.toNat })

/-- `set_memory_limit` (lines 52-71): reject non-positive values; set
`RLIMIT_AS` to `megabytes * 1024 * 1024` bytes when the platform accepts,
else report failure. -/
def set_memory_limit (ok : Res → Bool) (megabytes : Int) (st : RLimitState) :
    Bool × RLimitState :=
  if megabytes ≤ 0 then (false, st)
  else if ok .addressSpace then
    (true, { st with addressSpace := some (megabytes.toNat * 1024 * 1024) })
  else (false, st)

/-- `set_file_size_limit` (lines 74-93). -/
def set_file_size_limit (ok : Res → Bool) (megabytes : Int) (st : RLimitState) :
    Bool × RLimitState :=
  if megabytes ≤ 0 then (false, st)
  else if ok .fsize then
    (true, { st with fsize := some (megabytes.toNat * 1024 * 1024) })
  else (false, st)

/-- `set_open_files_limit` (lines 96-114). -/
def set_open_files_limit (ok : Res → Bool) (max_files : Int) (st : RLimitState) :
    Bool × RLimitState :=
  if max_files ≤ 0 then (false, st)
  else if ok .nofile then (true, { st with nofile := some max_files.toNat })
  else (false, st)

/-- `set_standard_limits` (lines 117-150): apply the four ceilings of the
named profile independently, collecting the per-limit results dict (an
unknown profile yields an empty dict). -/
def set_standard_limits (ok : Res → Bool) (profile : String) (st : RLimitState) :
    List (String × Bool) × RLimitState :=
  if profile = "strict" then
    let r1 := set_cpu_limit ok 30 st
    let r2 := set_memory_limit ok 512 r1.2
    let r3 := set_file_size_limit ok 10 r2.2
    let r4 := set_open_files_limit ok 100 r3.2
    ([("cpu", r1.1), ("memory", r2.1), ("file_size", r3.1), ("open_files", r4.1)], r4.2)
  else if profile = "moderate" then
    let r1 := set_cpu_limit ok 300 st
    let r2 := set_memory_limit ok 2048 r1.2
    let r3 := set_file_size_limit ok 100 r2.2
    let r4 := set_open_files_limit ok 1000 r3.2
    ([("cpu", r1.1), ("memory", r2.1), ("file_size", r3.1), ("open_files", r4.1)], r4.2)
  else if profile = "relaxed" then
    let r1 := set_cpu_limit ok 3600 st
    let r2 := set_memory_limit ok 4096 r1.2
    let r3 := set_file_size_limit ok 1024 r2.2
    let r4 := set_open_files_limit ok 10000 r3.2
    ([("cpu", r1.1), ("memory", r2.1), ("file_size", r3.1), ("open_files", r4.1)], r4.2)
  else ([], st)

/-- The ceiling fields of the dict returned by `get_current_usage`
(the `ru_utime`/`ru_stime`/`ru_maxrss` counters are runtime measurements
from `getrusage`, not functions of the rlimit table, and are not part of
the claims checked here). -/
structure UsageReport where
  cpu_limit : Option Nat
  memory_limit_mb : Option Nat
  deriving DecidableEq, Repr

/-- `get_current_usage` (lines 153-191), ceiling part: report the soft
`RLIMIT_CPU` value (or `None` at `RLIM_INFINITY`) and the soft `RLIMIT_AS`
value converted back to megabytes. -/
def get_current_usage (st : RLimitState) : UsageReport :=
  ⟨st.cpu, st.addressSpace.map (fun b => b / 1024 / 1024)⟩

/-! ## Audit Sink (audit_log.py)

The log file is modelled as its list of lines (`_write_log` appends
`json.dumps(entry) + '\n'`, one line per record).  `json.dumps` for the
entry dict built at lines 47-53 (string-keyed, with the `data` payloads
of this codebase being flat string-to-string maps) is modelled by an
explicit renderer with the default `json` separators, and `json.loads`
restricted to such lines by an explicit parser. -/

/-- The audit-entry record of `_write_log` (lines 47-53). -/
structure AuditEntry where
  timestamp : String
  session_id : String
  pid : Nat
  event_type : String
  data : List (String × String)
  deriving DecidableEq, Repr

/-- The double-quote character. -/
def dq : Char := Char.ofNat 34

/-- The opening-brace character. -/
def lbrace : Char := Char.ofNat 123

/-- The closing-brace character. -/
def rbrace : Char := Char.ofNat 125

/-- The decimal digit character for `d % 10`. -/
def digitChar : Nat → Char
  | 0 => '0'
  | 1 => '1'
  | 2 => '2'
  | 3 => '3'
  | 4 => '4'
  | 5 => '5'
  | 6 => '6'
  | 7 => '7'
  | 8 => '8'
  | _ => '9'

/-- Decimal rendering of a natural number, accumulator form. -/
def natToDigitsAux (n : Nat) (acc : List Char) : List Char :=
  if n < 10 then digitChar n :: acc
  else natToDigitsAux (n / 10) (digitChar (n % 10) :: acc)
termination_by n
decreasing_by exact Nat.div_lt_self (by omega) (by omega)

/-- Decimal rendering of a natural number (how `json.dumps` prints the
`pid` int). -/
def natToDigits (n : Nat) : List Char :=
  natToDigitsAux n []

/-- JSON rendering of one `"key": "value"` pair. -/
def pairChars (kv : String × String) : List Char :=
  dq :: (kv.1.data ++ [dq, ':', ' ', dq] ++ kv.2.data ++ [dq])

/-- JSON rendering of the tail of a dict body: `, "k": "v"` pairs then the
closing brace. -/
def dataCharsRest : List (String × String) → List Char
  | [] => [rbrace]
  | kv :: tl => ',' :: ' ' :: (pairChars kv ++ dataCharsRest tl)

/-- `json.dumps` of a flat string-to-string dict. -/
def dataChars : List (String × String) → List Char
  | [] => [lbrace, rbrace]
  | kv :: tl => lbrace :: (pairChars kv ++ dataCharsRest tl)

/-- JSON rendering of a dict key followed by `: `. -/
def keyChars (name : String) : List Char :=
  dq :: (name.data ++ [dq, ':', ' '])

/-- `json.dumps(entry)` for the five-field entry dict of `_write_log`,
with keys in the dict's insertion order. -/
def entryChars (e : AuditEntry) : List Char :=
  lbrace :: (keyChars "timestamp" ++ (dq :: (e.timestamp.data ++ [dq, ',', ' '])) ++
    keyChars "session_id" ++ (dq :: (e.session_id.data ++ [dq, ',', ' '])) ++
    keyChars "pid" ++ natToDigits e.pid ++ [',', ' '] ++
    keyChars "event_type" ++ (dq :: (e.event_type.data ++ [dq, ',', ' '])) ++
    keyChars "data" ++ dataChars e.data ++ [rbrace])

/-- The serialized log line `json.dumps(entry)` (line 57). -/
def json_dumps_entry (e : AuditEntry) : String :=
  String.mk (entryChars e)

/-- Consume an expected literal prefix. -/
def expects : List Char → List Char → Option (List Char)
  | [], s => some s
  | _ :: _, [] => none
  | c :: lit, d :: s => if c = d then expects lit s else none

/-- Consume characters up to and including the next double quote,
returning the consumed body. -/
def takeUntilQuote : List Char → Option (List Char × List Char)
  | [] => none
  | c :: rest =>
    if c = dq then some ([], rest)
    else
      match takeUntilQuote rest with
      | some (acc, r) => some (c :: acc, r)
      | none => none

/-- Numeric value of a decimal digit character. -/
def digitVal (c : Char) : Nat :=
  c.toNat - 48

/-- Consume a run of decimal digits into an accumulator. -/
def readDigits (acc : Nat) : List Char → Nat × List Char
  | [] => (acc, [])
  | c :: rest => if c.isDigit then readDigits (acc * 10 + digitVal c) rest else (acc, c :: rest)

/-- Parse a decimal number (at least one digit required). -/
def parseNatNum (s : List Char) : Option (Nat × List Char) :=
  match s with
  | c :: _ => if c.isDigit then some (readDigits 0 s) else none
  | [] => none

/-- Parse one `"key": "value"` pair. -/
def parsePair (s : List Char) : Option ((String × String) × List Char) :=
  match expects [dq] s with
  | none => none
  | some s1 =>
    match takeUntilQuote s1 with
    | none => none
    | some (k, s2) =>
      match expects [':', ' ', dq] s2 with
      | none => none
      | some s3 =>
        match takeUntilQuote s3 with
        | none => none
        | some (v, s4) => some ((String.mk k, String.mk v), s4)

/-- Parse the remaining pairs of a dict body up to the closing brace
(`fuel` bounds the recursion; one unit per pair suffices). -/
def parsePairsRest (fuel : Nat) (s : List Char) : Option (List (String × String) × List Char) :=
  match fuel with
  | 0 => none
  | fuel + 1 =>
    match s with
    | [] => none
    | c :: rest =>
      if c = rbrace then some ([], rest)
      else if c = ',' then
        match expects [' '] rest with
        | none => none
        | some s1 =>
          match parsePair s1 with
          | none => none
          | some (kv, s2) =>
            match parsePairsRest fuel s2 with
            | none => none
            | some (kvs, s3) => some (kv :: kvs, s3)
      else none

/-- Parse a flat string-to-string JSON dict. -/
def parseDataChars (s : List Char) : Option (List (String × String) × List Char) :=
  match expects [lbrace] s with
  | none => none
  | some s1 =>
    match s1 with
    | [] => none
    | c :: _ =>
      if c = rbrace then some ([], s1.tail)
      else
        match parsePair s1 with
        | none => none
        | some (kv, s2) =>
          match parsePairsRest (s2.length + 1) s2 with
          | none => none
          | some (kvs, s3) => some (kv :: kvs, s3)

/-- `json.loads` restricted to the line shape `_write_log` emits: parse
the five fields in order and require the input to be fully consumed. -/
def parseEntryChars (s : List Char) : Option AuditEntry := do
  let s ← expects (lbrace :: (keyChars "timestamp" ++ [dq])) s
  let (ts, s) ← takeUntilQuote s
  let s ← expects ([',', ' '] ++ keyChars "session_id" ++ [dq]) s
  let (sid, s) ← takeUntilQuote s
  let s ← expects ([',', ' '] ++ keyChars "pid") s
  let (pid, s) ← parseNatNum s
  let s ← expects ([',', ' '] ++ keyChars "event_type" ++ [dq]) s
  let (et, s) ← takeUntilQuote s
  let s ← expects ([',', ' '] ++ keyChars "data") s
  let (kvs, s) ← parseDataChars s
  let s ← expects [rbrace] s
  match s with
  | [] => some ⟨String.mk ts, String.mk sid, pid, String.mk et, kvs⟩
  | _ => none

/-- The `AuditLogger` fields relevant to writing (`__init__`, lines 23-40);
the log-file contents are threaded explicitly. -/
structure AuditLogger where
  enabled : Bool
  session_id : String

/-- `AuditLogger._write_log` (lines 42-60): skip when disabled, else build
the entry from the logger's session, the wall clock and the pid, and
append one serialized line to the log file. -/
def write_log (lg : AuditLogger) (file : List String) (now : String) (pid : Nat)
    (event_type : String) (data : List (String × String)) : List String :=
  if lg.enabled then
    file ++ [json_dumps_entry ⟨now, lg.session_id, pid, event_type, data⟩]
  else
    file

/-- `AuditLogger.log_blocked_import` (lines 62-67). -/
def log_blocked_import (lg : AuditLogger) (file : List String) (now : String) (pid : Nat)
    (module_name : String) (caller_file : String) : List String :=
  write_log lg file now pid "blocked_import" [("module", module_name), ("caller", caller_file)]

/-- `read_audit_log` (lines 154-186): parse each line (after `strip`),
skipping lines that fail to parse; with a truthy `limit`, keep only the
most recent `limit` entries. -/
def read_audit_log (file : List String) (limit : Option Nat) : List AuditEntry :=
  let entries := file.filterMap (fun line => parseEntryChars (pyStrip line).data)
  match limit with
  | none => entries
  | some k => if k = 0 then entries else entries.drop (entries.length - k)

/-- `search_audit_log` (lines 189-215): read everything, then keep entries
matching the truthy `event_type` filter and not older than a truthy
`since` timestamp. -/
def search_audit_log (file : List String) (event_type : Option String)
    (since : Option String) : List AuditEntry :=
  (read_audit_log file none).filter (fun e =>
    (match event_type with
     | none => true
     | some t => if t = "" then true else e.event_type == t) &&
    (match since with
     | none => true
     | some s0 => if s0 = "" then true else !(decide (e.timestamp < s0))))

/-- One request to `record` an event: the wall-clock timestamp and pid at
the moment of the call, the event type and the payload. -/
structure AuditEventReq where
  now : String
  pid : Nat
  event_type : String
  data : List (String × String)
  deriving DecidableEq, Repr

/-- Record a sequence of events through `_write_log` in order. -/
def write_all (lg : AuditLogger) (file : List String) (events : List AuditEventReq) :
    List String :=
  events.foldl (fun f ev => write_log lg f ev.now ev.pid ev.event_type ev.data) file

/-- A string free of double quotes (the payloads and names the enforcement
layer logs contain none; `json.dumps` would escape them otherwise). -/
def cleanStr (s : String) : Bool :=
  !s.data.contains dq

/-- All keys and values of a payload are quote-free. -/
def cleanData (kvs : List (String × String)) : Bool :=
  kvs.all (fun kv => cleanStr kv.1 && cleanStr kv.2)

/-- All string fields of an event request are quote-free. -/
def cleanEvent (ev : AuditEventReq) : Bool :=
  cleanStr ev.now && cleanStr ev.event_type && cleanData ev.data

/-- The entry `_write_log` builds for an event request. -/
def entryOf (lg : AuditLogger) (ev : AuditEventReq) : AuditEntry :=
  ⟨ev.now, lg.session_id, ev.pid, ev.event_type, ev.data⟩

/-- A small concrete canonicalizer used to instantiate the filesystem
theorems: three resolvable paths, everything else fails to resolve. -/
def resolveDemo : String → Option CanonPath
  | "/tmp/f" => some ["tmp", "f"]
  | "/data/f" => some ["data", "f"]
  | "/etc/passwd" => some ["etc", "passwd"]
  | _ => none

/-- The first char of a list is a decimal digit. -/
def headDigit : List Char → Bool
  | [] => false
  | c :: _ => c.isDigit

/-!
# Theorems
-/

/-- Helper: `find_spec_with_audit` is `find_spec` with the log threaded
through unchanged. -/
theorem find_spec_with_audit_eq (log : List String) (name : String) :
    find_spec_with_audit log name = (log, find_spec name) := by
  unfold find_spec_with_audit find_spec
  by_cases h1 : name ∈ BLOCKED_MODULES
  · simp [h1]
  · by_cases h2 : BLOCKED_MODULES.any (fun blocked => (blocked ++ ".").isPrefixOf name) = true
    · simp [h1, h2]
    · simp [h1, h2]

/-- C1: `find_spec` denies with an error carrying the offending name
exactly when the name is in the fixed deny set or is a dotted sub-name of
a denied root, and returns success on every other name. -/
theorem C1_find_spec_deny_iff (name : String) :
    (find_spec name = .error ⟨name⟩ ↔
      name ∈ BLOCKED_MODULES ∨
        ∃ blocked ∈ BLOCKED_MODULES, (blocked ++ ".").isPrefixOf name = true) ∧
    (find_spec name = .ok () ↔
      ¬(name ∈ BLOCKED_MODULES ∨
        ∃ blocked ∈ BLOCKED_MODULES, (blocked ++ ".").isPrefixOf name = true)) := by
  have hiff : (BLOCKED_MODULES.any (fun blocked => (blocked ++ ".").isPrefixOf name) = true) ↔
      ∃ blocked ∈ BLOCKED_MODULES, (blocked ++ ".").isPrefixOf name = true :=
    List.any_eq_true
  unfold find_spec
  by_cases h1 : name ∈ BLOCKED_MODULES
  · simp [h1]
  · by_cases h2 : BLOCKED_MODULES.any (fun blocked => (blocked ++ ".").isPrefixOf name) = true
    · simp [h1, h2, hiff.mp h2]
    · simp [h1, h2, ← hiff]

/-- Witness for C1: `socket` is denied with its name in the error, `json`
loads. -/
theorem C1_find_spec_deny_iff_witness :
    find_spec "socket" = .error ⟨"socket"⟩ ∧ find_spec "json" = .ok () :=
  ⟨(C1_find_spec_deny_iff "socket").1.mpr (Or.inl (by decide)),
   (C1_find_spec_deny_iff "json").2.mpr (by decide)⟩

/-- C4 counterexample: denying `socket` returns the error but appends no
`blocked_import` (nor any other) audit event: the log is unchanged. -/
theorem C4_deny_socket_appends_no_event :
    find_spec_with_audit [] "socket" = ([], .error ⟨"socket"⟩) := by
  rw [find_spec_with_audit_eq]
  rfl

/-- C4 (amended): whenever `find_spec` denies a capability name it returns
the distinguishable error carrying the name, but writes no audit event:
the audit log passes through unchanged. -/
theorem C4_deny_returns_error_without_audit (log : List String) (name : String)
    (h : find_spec name = .error ⟨name⟩) :
    find_spec_with_audit log name = (log, .error ⟨name⟩) := by
  rw [find_spec_with_audit_eq, h]

/-- Witness for C4 (amended) at `socket` over a nonempty log. -/
theorem C4_deny_returns_error_without_audit_witness :
    find_spec_with_audit ["line1"] "socket" = (["line1"], .error ⟨"socket"⟩) :=
  C4_deny_returns_error_without_audit ["line1"] "socket" rfl

/-- Helper: `run` reduces to the safety check on the first positional
argument followed by the real call. -/
theorem run_eq_check {ρ : Type} (argv : List String) (kw : Option (List String)) (real : ρ) :
    run [argv] kw real =
      match check_command_safety argv with
      | .error e => .error e
      | .ok _ => .ok real :=
  rfl

/-- Helper: `_check_command_safety` raises exactly when the base command
(final path segment of the first element) is blocked or the lower-cased
joined command contains a blocked pattern. -/
theorem check_command_safety_error_iff (cmd : List String) :
    (∃ e, check_command_safety cmd = .error e) ↔
      (match cmd.head? with
       | some first => last_path_segment first ∈ BLOCKED_COMMANDS
       | none => False) ∨
      ∃ pat ∈ BLOCKED_PATTERNS,
        str_contains (py_lower (String.intercalate " " cmd)) pat = true := by
  cases cmd with
  | nil =>
    have h : check_command_safety [] = .ok () := rfl
    rw [h]
    simp only [List.head?_nil]
    constructor
    · rintro ⟨e, he⟩
      exact absurd he (by simp)
    · intro h2
      exact absurd h2 (by decide)
  | cons c rest =>
    unfold check_command_safety
    simp only [List.head?_cons, false_or]
    by_cases hb : last_path_segment c ∈ BLOCKED_COMMANDS
    · simp [hb]
    · simp only [hb, if_false, false_or]
      rcases hfind : BLOCKED_PATTERNS.find?
          (fun pat => str_contains (py_lower (String.intercalate " " (c :: rest))) pat)
        with _ | pat
      · rw [List.find?_eq_none] at hfind
        simp only [hfind]
        constructor
        · rintro ⟨e, he⟩
          exact absurd he (by simp)
        · rintro ⟨pat, hmem, hpat⟩
          exact absurd hpat (by simpa using hfind pat hmem)
      · have hmem := List.mem_of_find?_eq_some hfind
        have hp := List.find?_some hfind
        simp only [hfind]
        exact ⟨fun _ => ⟨pat, hmem, hp⟩, fun _ => ⟨.blockedPattern pat, rfl⟩⟩

/-- C2: `run` over a positional command denies exactly when the base
executable name (final path segment of the first argv element,
case-sensitively) is in `BLOCKED_COMMANDS` or the space-joined argv,
lower-cased, contains some blocked pattern; every other command runs the
real primitive and returns its result unmodified, in particular
`["echo", "hi"]`. -/
theorem C2_run_deny_iff {ρ : Type} (argv : List String) (kw : Option (List String)) (real : ρ) :
    ((∃ e, run [argv] kw real = .error e) ↔
      (match argv.head? with
       | some first => last_path_segment first ∈ BLOCKED_COMMANDS
       | none => False) ∨
      ∃ pat ∈ BLOCKED_PATTERNS,
        str_contains (py_lower (String.intercalate " " argv)) pat = true) ∧
    ((run [argv] kw real = .ok real) ↔
      ¬((match argv.head? with
         | some first => last_path_segment first ∈ BLOCKED_COMMANDS
         | none => False) ∨
        ∃ pat ∈ BLOCKED_PATTERNS,
          str_contains (py_lower (String.intercalate " " argv)) pat = true)) ∧
    run [["echo", "hi"]] kw real = .ok real := by
  have h := check_command_safety_error_iff argv
  have hecho : check_command_safety ["echo", "hi"] = .ok () := rfl
  have hechorun : run [["echo", "hi"]] kw real = .ok real := by
    rw [run_eq_check, hecho]
  rcases hc : check_command_safety argv with e | u
  · have hrun : run [argv] kw real = .error e := by rw [run_eq_check, hc]
    have hcond := h.mp ⟨e, hc⟩
    refine ⟨⟨fun _ => hcond, fun _ => ⟨e, hrun⟩⟩, ⟨fun hok => ?_, fun hn => absurd hcond hn⟩,
      hechorun⟩
    rw [hrun] at hok
    exact absurd hok (by simp)
  · have hrun : run [argv] kw real = .ok real := by rw [run_eq_check, hc]
    have hncond : ¬((match argv.head? with
        | some first => last_path_segment first ∈ BLOCKED_COMMANDS
        | none => False) ∨
        ∃ pat ∈ BLOCKED_PATTERNS,
          str_contains (py_lower (String.intercalate " " argv)) pat = true) := by
      intro hcond
      rcases h.mpr hcond with ⟨e, he⟩
      rw [hc] at he
      exact absurd he (by simp)
    refine ⟨⟨fun hex => ?_, fun hcond => absurd hcond hncond⟩,
      ⟨fun _ => hncond, fun _ => hrun⟩, hechorun⟩
    rcases hex with ⟨e, he⟩
    rw [hrun] at he
    exact absurd he (by simp)

/-- Witness for C2: `["echo", "hi"]` runs the real primitive, `curl` is
denied. -/
theorem C2_run_deny_iff_witness :
    run [["echo", "hi"]] none (0 : Nat) = .ok 0 ∧
    (∃ e, run [["curl", "example.com"]] none (0 : Nat) = .error e) :=
  ⟨(C2_run_deny_iff ["echo", "hi"] none 0).2.2,
   (C2_run_deny_iff ["curl", "example.com"] none 0).1.mpr
     (Or.inl (show last_path_segment "curl" ∈ BLOCKED_COMMANDS by decide))⟩

/-- C6: when the command reaches a wrapper only through a keyword argument
(no positional arguments), every one of the five wrappers skips the safety
check and runs the real primitive, even for a command the check would
deny. -/
theorem C6_kwargs_bypass {ρ : Type} (kwcmd : List String) (e : NetworkCommandError) (real : ρ)
    (h : check_command_safety kwcmd = .error e) :
    run [] (some kwcmd) real = .ok real ∧
    call [] (some kwcmd) real = .ok real ∧
    check_call [] (some kwcmd) real = .ok real ∧
    check_output [] (some kwcmd) real = .ok real ∧
    Popen [] (some kwcmd) real = .ok real :=
  ⟨rfl, rfl, rfl, rfl, rfl⟩

/-- Witness for C6: `curl` as a keyword-only command is denied by the
check yet executes through `run`. -/
theorem C6_kwargs_bypass_witness :
    check_command_safety ["curl", "http://example.com"] =
      .error (.blockedCommand "curl") ∧
    run [] (some ["curl", "http://example.com"]) (0 : Nat) = .ok 0 :=
  ⟨rfl,
   (C6_kwargs_bypass ["curl", "http://example.com"] (.blockedCommand "curl") 0 rfl).1⟩

/-- C3: in read-only mode every write-mode open denies regardless of the
path and every read-mode open of a resolvable path allows; in whitelist
mode an open allows exactly when the canonical path lies under some
allowed root, and denies otherwise. -/
theorem C3_filesystem_policy (resolve : String → Option CanonPath)
    (allowed denied : List CanonPath) (file mode : String) :
    (["w", "a", "x", "+"].any (fun m => str_contains mode m) = true →
      sandboxed_open ⟨.read_only, allowed, denied⟩ resolve file mode =
        .error (.readOnlyWrite file)) ∧
    (["w", "a", "x", "+"].any (fun m => str_contains mode m) = false →
      ∀ p, resolve file = some p →
        sandboxed_open ⟨.read_only, allowed, denied⟩ resolve file mode = .ok ⟨file, mode⟩) ∧
    (∀ p, resolve file = some p → (∃ root ∈ allowed, relative_to_ok p root = true) →
      sandboxed_open ⟨.whitelist, allowed, denied⟩ resolve file mode = .ok ⟨file, mode⟩) ∧
    ((¬∃ p, resolve file = some p ∧ ∃ root ∈ allowed, relative_to_ok p root = true) →
      sandboxed_open ⟨.whitelist, allowed, denied⟩ resolve file mode =
        .error (.notAllowed file)) := by
  refine ⟨?_, ?_, ?_, ?_⟩
  · intro hw
    simp [sandboxed_open, hw]
  · intro hw p hp
    simp [sandboxed_open, is_path_allowed, hw, hp]
  · intro p hp hroot
    have hany : allowed.any (fun a => relative_to_ok p a) = true := by
      rw [List.any_eq_true]
      obtain ⟨r, hr, hrel⟩ := hroot
      exact ⟨r, hr, hrel⟩
    simp [sandboxed_open, is_path_allowed, hp, hany]
  · intro hn
    rcases hres : resolve file with _ | p
    · simp [sandboxed_open, is_path_allowed, hres]
    · have hany : allowed.any (fun a => relative_to_ok p a) = false := by
        rw [List.any_eq_false]
        intro r hr hrel
        exact hn ⟨p, hres, r, hr, hrel⟩
      simp [sandboxed_open, is_path_allowed, hres, hany]

/-- Witness for C3: concrete opens under `resolveDemo`. -/
theorem C3_filesystem_policy_witness :
    sandboxed_open ⟨.read_only, [], []⟩ resolveDemo "/tmp/f" "w" =
      .error (.readOnlyWrite "/tmp/f") ∧
    sandboxed_open ⟨.read_only, [], []⟩ resolveDemo "/tmp/f" "r" = .ok ⟨"/tmp/f", "r"⟩ ∧
    sandboxed_open ⟨.whitelist, [["data"]], []⟩ resolveDemo "/data/f" "r" =
      .ok ⟨"/data/f", "r"⟩ ∧
    sandboxed_open ⟨.whitelist, [["data"]], []⟩ resolveDemo "/etc/passwd" "r" =
      .error (.notAllowed "/etc/passwd") := by
  refine ⟨(C3_filesystem_policy resolveDemo [] [] "/tmp/f" "w").1 (by decide),
    (C3_filesystem_policy resolveDemo [] [] "/tmp/f" "r").2.1 (by decide) ["tmp", "f"] rfl,
    (C3_filesystem_policy resolveDemo [["data"]] [] "/data/f" "r").2.2.1 ["data", "f"] rfl
      ⟨["data"], by decide, by decide⟩,
    (C3_filesystem_policy resolveDemo [["data"]] [] "/etc/passwd" "r").2.2.2 ?_⟩
  rintro ⟨p, hp, r, hr, hrel⟩
  rw [show resolveDemo "/etc/passwd" = some ["etc", "passwd"] from rfl] at hp
  cases hp
  rw [List.mem_singleton] at hr
  subst hr
  exact absurd hrel (by decide)

/-- C7: when canonicalization fails, the path check returns `false` in
every mode, independent of the configured roots, and the open denies. -/
theorem C7_resolve_failure_fail_closed (m : SandboxMode) (allowed denied : List CanonPath)
    (resolve : String → Option CanonPath) (file mode : String)
    (h : resolve file = none) :
    is_path_allowed ⟨m, allowed, denied⟩ resolve file = false ∧
    ∃ e, sandboxed_open ⟨m, allowed, denied⟩ resolve file mode = .error e := by
  have hpa : is_path_allowed ⟨m, allowed, denied⟩ resolve file = false := by
    unfold is_path_allowed
    rw [h]
  refine ⟨hpa, ?_⟩
  unfold sandboxed_open
  split
  · dsimp only
    split
    · exact ⟨.readOnlyWrite file, rfl⟩
    · exact ⟨.notAllowed file, rfl⟩
  · next hcontra =>
    rw [hpa] at hcontra
    simp at hcontra

/-- Witness for C7: an unresolvable path is denied even in disabled mode. -/
theorem C7_resolve_failure_fail_closed_witness :
    is_path_allowed ⟨.disabled, [], []⟩ (fun _ => none) "/bad" = false ∧
    ∃ e, sandboxed_open ⟨.disabled, [], []⟩ (fun _ => none) "/bad" "r" = .error e :=
  C7_resolve_failure_fail_closed .disabled [] [] (fun _ => none) "/bad" "r" rfl

/-- Helper: `filterMap` of a guarded `some` is `map` after `filter`. -/
theorem filterMap_guard_eq_map_filter {α β : Type} (p : α → Bool) (f : α → β) (l : List α) :
    l.filterMap (fun a => if p a then some (f a) else none) = (l.filter p).map f := by
  induction l with
  | nil => rfl
  | cons a l ih =>
    by_cases h : p a <;> simp [List.filterMap_cons, List.filter_cons, h, ih]

/-- Helper: `scan_file` is the per-line filter of the print pattern,
rendered as findings. -/
theorem scan_lines_eq (fp : String) (lines : List String) :
    scan_lines fp lines =
      (lines.enum.filter (fun p => print_pattern_search p.2)).map
        (fun p => ⟨"PRINT_STATEMENT_IOC", fp, p.1 + 1, pyStrip p.2, "CRITICAL"⟩) := by
  unfold scan_lines
  exact filterMap_guard_eq_map_filter _ _ _

/-- C9: when line 5 is the only line matching the print pattern, scanning
yields exactly one finding, Critical, at line 5; when no line matches,
scanning yields the empty list. -/
theorem C9_scan_single_match (fp : String) (lines : List String) :
    ((lines.enum.filter (fun p => print_pattern_search p.2)).map (fun p => p.1 + 1) = [5] →
      ∃ f, scan_lines fp lines = [f] ∧ f.line = 5 ∧ f.severity = "CRITICAL" ∧
        f.file = fp) ∧
    ((∀ l ∈ lines, print_pattern_search l = false) → scan_lines fp lines = []) := by
  constructor
  · intro h5
    rcases hF : lines.enum.filter (fun p => print_pattern_search p.2) with _ | ⟨x, tl⟩
    · rw [hF] at h5
      simp at h5
    · rw [hF] at h5
      simp only [List.map_cons, List.cons.injEq] at h5
      obtain ⟨hx, htl⟩ := h5
      have htl' : tl = [] := by
        rcases tl with _ | ⟨y, tl2⟩
        · rfl
        · simp at htl
      refine ⟨⟨"PRINT_STATEMENT_IOC", fp, x.1 + 1, pyStrip x.2, "CRITICAL"⟩, ?_, hx, rfl, rfl⟩
      rw [scan_lines_eq, hF, htl']
      rfl
  · intro hnone
    rw [scan_lines_eq]
    have hfil : lines.enum.filter (fun p => print_pattern_search p.2) = [] := by
      rw [List.filter_eq_nil_iff]
      rintro ⟨i, l⟩ hmem
      have := List.mem_enum hmem
      have hl : l ∈ lines := this.2 ▸ lines.getElem_mem this.1
      simp [hnone l hl]
    rw [hfil]
    rfl

/-- Witness for C9: `print(x)` on line 5 of a five-line text, and a text
with no occurrence. -/
theorem C9_scan_single_match_witness :
    (∃ f, scan_lines "script.py" ["a", "b", "c", "d", "print(x)"] = [f] ∧
      f.line = 5 ∧ f.severity = "CRITICAL" ∧ f.file = "script.py") ∧
    scan_lines "script.py" ["sys.stdout.write(x)"] = [] :=
  ⟨(C9_scan_single_match "script.py" ["a", "b", "c", "d", "print(x)"]).1 (by decide),
   (C9_scan_single_match "script.py" ["sys.stdout.write(x)"]).2 (by decide)⟩

/-- C5 (code bug in the source): the enforcement layer's own
`restricted_subprocess.py` contains a `print(` call (its `__main__` test
block, file line 115), so scanning that line of its text yields a
Critical finding rather than the empty sequence the invariant promises. -/
theorem C5_worm_source_triggers_scan :
    scan_lines "src/worm/modules/restricted_subprocess.py"
      ["    print(\"Testing restricted subprocess module...\")"] =
      [⟨"PRINT_STATEMENT_IOC", "src/worm/modules/restricted_subprocess.py", 1,
        "print(\"Testing restricted subprocess module...\")", "CRITICAL"⟩] := by
  decide

/-- C10: the strict profile installs ceilings of 30 CPU seconds, 512 MB
memory, 10 MB file size and 100 descriptors, each independently with a
per-limit result, and the usage snapshot afterwards reports a CPU ceiling
of 30 and a memory ceiling of 512 MB. -/
theorem C10_strict_profile (ok : Res → Bool) (st : RLimitState)
    (hcpu : ok .cpu = true) (hmem : ok .addressSpace = true) :
    (set_standard_limits ok "strict" st).1 =
      [("cpu", true), ("memory", true), ("file_size", ok .fsize), ("open_files", ok .nofile)] ∧
    (set_standard_limits ok "strict" st).2.cpu = some 30 ∧
    (set_standard_limits ok "strict" st).2.addressSpace = some (512 * 1024 * 1024) ∧
    (set_standard_limits ok "strict" st).2.fsize =
      (if ok .fsize then some (10 * 1024 * 1024) else st.fsize) ∧
    (set_standard_limits ok "strict" st).2.nofile =
      (if ok .nofile then some 100 else st.nofile) ∧
    get_current_usage (set_standard_limits ok "strict" st).2 = ⟨some 30, some 512⟩ := by
  cases hf : ok .fsize <;> cases hn : ok .nofile <;>
    simp [set_standard_limits, set_cpu_limit, set_memory_limit, set_file_size_limit,
      set_open_files_limit, get_current_usage, hcpu, hmem, hf, hn]

/-- Witness for C10 on a platform accepting all four limits, starting from
an unlimited rlimit table. -/
theorem C10_strict_profile_witness :
    (set_standard_limits (fun _ => true) "strict" ⟨none, none, none, none, none⟩).1 =
      [("cpu", true), ("memory", true), ("file_size", true), ("open_files", true)] ∧
    get_current_usage
      (set_standard_limits (fun _ => true) "strict" ⟨none, none, none, none, none⟩).2 =
      ⟨some 30, some 512⟩ := by
  have h := C10_strict_profile (fun _ => true) ⟨none, none, none, none, none⟩ rfl rfl
  exact ⟨h.1, h.2.2.2.2.2⟩

/-! ### Audit-log serialization lemmas -/

/-- Rebuilding a string from its characters is the identity. -/
@[simp] theorem string_mk_data (s : String) : String.mk s.data = s :=
  rfl

/-- A clean string has no double quote among its characters. -/
theorem cleanStr_not_mem {s : String} (h : cleanStr s = true) : dq ∉ s.data := by
  rw [cleanStr] at h
  simp at h
  exact h

/-- Clean payload data, fieldwise. -/
theorem cleanData_forall {kvs : List (String × String)} (h : cleanData kvs = true) :
    ∀ kv ∈ kvs, dq ∉ kv.1.data ∧ dq ∉ kv.2.data := by
  intro kv hm
  rw [cleanData, List.all_eq_true] at h
  have hkv := h kv hm
  simp only [Bool.and_eq_true] at hkv
  exact ⟨cleanStr_not_mem hkv.1, cleanStr_not_mem hkv.2⟩

/-- `expects` of the empty literal consumes nothing. -/
@[simp] theorem expects_nil (s : List Char) : expects [] s = some s :=
  rfl

/-- `expects` consumes a matching head character. -/
@[simp] theorem expects_cons_self (c : Char) (lit s : List Char) :
    expects (c :: lit) (c :: s) = expects lit s := by
  simp [expects]

/-- `expects` consumes a matching block of characters. -/
@[simp] theorem expects_append_left (xs lit s : List Char) :
    expects (xs ++ lit) (xs ++ s) = expects lit s := by
  induction xs with
  | nil => rfl
  | cons c xs ih => simpa using ih

/-- `takeUntilQuote` consumes a quote-free body up to the closing quote. -/
@[simp] theorem takeUntilQuote_append (body rest : List Char) (h : dq ∉ body) :
    takeUntilQuote (body ++ dq :: rest) = some (body, rest) := by
  induction body with
  | nil => simp [takeUntilQuote]
  | cons c body ih =>
    have hc : ¬c = dq := fun hcd => h (hcd ▸ List.mem_cons_self c body)
    have hb : dq ∉ body := fun hm => h (List.mem_cons_of_mem c hm)
    simp [takeUntilQuote, hc, ih hb]

/-- Every digit character is a digit. -/
theorem digitChar_isDigit (d : Nat) : (digitChar d).isDigit = true := by
  unfold digitChar
  split <;> decide

/-- `digitVal` inverts `digitChar` below ten. -/
theorem digitVal_digitChar (d : Nat) (h : d < 10) : digitVal (digitChar d) = d := by
  interval_cases d <;> decide

/-- The accumulator of `natToDigitsAux` is a suffix. -/
theorem natToDigitsAux_append (n : Nat) (acc : List Char) :
    natToDigitsAux n acc = natToDigits n ++ acc := by
  rw [natToDigits]
  induction n using Nat.strong_induction_on generalizing acc with
  | _ n ih =>
    by_cases h : n < 10
    · rw [natToDigitsAux.eq_def]
      conv_rhs => rw [natToDigitsAux.eq_def]
      simp [h]
    · rw [natToDigitsAux.eq_def]
      conv_rhs => rw [natToDigitsAux.eq_def]
      simp only [h, if_false]
      rw [ih (n / 10) (Nat.div_lt_self (by omega) (by omega)) (digitChar (n % 10) :: acc),
        ih (n / 10) (Nat.div_lt_self (by omega) (by omega)) [digitChar (n % 10)]]
      simp

/-- Every character of a rendered number is a digit. -/
theorem natToDigits_all_digit (n : Nat) : ∀ c ∈ natToDigits n, c.isDigit = true := by
  induction n using Nat.strong_induction_on with
  | _ n ih =>
    intro c hc
    rw [natToDigits, natToDigitsAux.eq_def] at hc
    by_cases h : n < 10
    · simp only [h, if_true] at hc
      rw [List.mem_singleton] at hc
      exact hc ▸ digitChar_isDigit n
    · simp only [h, if_false] at hc
      rw [natToDigitsAux_append] at hc
      rcases List.mem_append.mp hc with hm | hm
      · exact ih (n / 10) (Nat.div_lt_self (by omega) (by omega)) c hm
      · rw [List.mem_singleton] at hm
        exact hm ▸ digitChar_isDigit (n % 10)

/-- A rendered number is never empty. -/
theorem natToDigits_ne_nil (n : Nat) : natToDigits n ≠ [] := by
  rw [natToDigits, natToDigitsAux.eq_def]
  by_cases h : n < 10
  · simp [h]
  · simp only [h, if_false]
    rw [natToDigitsAux_append]
    simp

/-- `readDigits` consumes exactly a digit block followed by a non-digit. -/
theorem readDigits_append (ds : List Char) : ∀ (rest : List Char) (acc : Nat),
    (∀ c ∈ ds, c.isDigit = true) → headDigit rest = false →
    readDigits acc (ds ++ rest) = (ds.foldl (fun a c => a * 10 + digitVal c) acc, rest) := by
  induction ds with
  | nil =>
    intro rest acc _ hrest
    cases rest with
    | nil => rfl
    | cons c r =>
      rw [headDigit] at hrest
      simp [readDigits, hrest]
  | cons d ds ih =>
    intro rest acc hds hrest
    have hd : d.isDigit = true := hds d (List.mem_cons_self d ds)
    have hds2 : ∀ c ∈ ds, c.isDigit = true := fun c hm => hds c (List.mem_cons_of_mem d hm)
    simp only [List.cons_append, readDigits, hd, if_true, List.foldl_cons]
    exact ih rest (acc * 10 + digitVal d) hds2 hrest

/-- Folding the digit values of a rendered number recovers it. -/
theorem foldl_natToDigits (n : Nat) : ∀ acc : Nat,
    (natToDigits n).foldl (fun a c => a * 10 + digitVal c) acc =
      acc * 10 ^ (natToDigits n).length + n := by
  induction n using Nat.strong_induction_on with
  | _ n ih =>
    intro acc
    by_cases h : n < 10
    · have hd : natToDigits n = [digitChar n] := by
        rw [natToDigits, natToDigitsAux.eq_def]
        simp [h]
      rw [hd]
      simp [digitVal_digitChar n h]
    · have hsplit : natToDigits n = natToDigits (n / 10) ++ [digitChar (n % 10)] := by
        rw [natToDigits, natToDigitsAux.eq_def]
        simp only [h, if_false]
        rw [natToDigitsAux_append]
      rw [hsplit, List.foldl_append]
      rw [ih (n / 10) (Nat.div_lt_self (by omega) (by omega)) acc]
      simp only [List.foldl_cons, List.foldl_nil, List.length_append, List.length_singleton]
      rw [digitVal_digitChar (n % 10) (Nat.mod_lt n (by omega))]
      rw [pow_succ, ← mul_assoc]
      omega

/-- `parseNatNum` inverts the decimal rendering when followed by a
non-digit. -/
theorem parseNatNum_append (n : Nat) (rest : List Char) (hrest : headDigit rest = false) :
    parseNatNum (natToDigits n ++ rest) = some (n, rest) := by
  have hread : readDigits 0 (natToDigits n ++ rest) = (n, rest) := by
    rw [readDigits_append (natToDigits n) rest 0 (natToDigits_all_digit n) hrest,
      foldl_natToDigits]
    simp
  rcases hd : natToDigits n with _ | ⟨c, tl⟩
  · exact absurd hd (natToDigits_ne_nil n)
  · have hc : c.isDigit = true := by
      refine natToDigits_all_digit n c ?_
      rw [hd]
      exact List.mem_cons_self c tl
    rw [hd] at hread
    simp only [List.cons_append] at hread ⊢
    simp [parseNatNum, hc, hread]

/-- `parsePair` inverts the rendering of one clean pair (input given in
append-normal form). -/
theorem parsePair_render (k v : String) (rest : List Char)
    (hk : dq ∉ k.data) (hv : dq ∉ v.data) :
    parsePair (dq :: (k.data ++ (dq :: ':' :: ' ' :: dq :: (v.data ++ (dq :: rest))))) =
      some ((k, v), rest) := by
  simp [parsePair, hk, hv]

/-- `parsePairsRest` inverts the rendering of the remaining clean pairs of
a dict body, given enough fuel. -/
theorem parsePairsRest_render (tl : List (String × String)) :
    ∀ (fuel : Nat) (rest : List Char), tl.length + 1 ≤ fuel →
    (∀ kv ∈ tl, dq ∉ kv.1.data ∧ dq ∉ kv.2.data) →
    parsePairsRest fuel (dataCharsRest tl ++ rest) = some (tl, rest) := by
  induction tl with
  | nil =>
    intro fuel rest hfuel _
    match fuel, hfuel with
    | fuel + 1, _ => simp [dataCharsRest, parsePairsRest]
  | cons kv tl ih =>
    intro fuel rest hfuel hclean
    match fuel, hfuel with
    | fuel + 1, hfuel =>
      obtain ⟨hk, hv⟩ := hclean kv (List.mem_cons_self kv tl)
      have hcl : ∀ kv2 ∈ tl, dq ∉ kv2.1.data ∧ dq ∉ kv2.2.data :=
        fun kv2 hm => hclean kv2 (List.mem_cons_of_mem kv hm)
      have hfuel2 : tl.length + 1 ≤ fuel := by
        simpa using hfuel
      simp [dataCharsRest, parsePairsRest, pairChars, List.append_assoc,
        (by decide : ¬(',' : Char) = rbrace), parsePair_render, hk, hv,
        ih fuel rest hfuel2 hcl]

/-- The rendered tail of a dict body is at least one character per pair. -/
theorem dataCharsRest_length (tl : List (String × String)) :
    tl.length ≤ (dataCharsRest tl).length := by
  induction tl with
  | nil => simp [dataCharsRest]
  | cons kv tl ih =>
    simp only [dataCharsRest, List.length_cons, List.length_append]
    omega

/-- `parseDataChars` inverts the rendering of a clean dict. -/
theorem parseDataChars_render (kvs : List (String × String)) (rest : List Char)
    (hclean : ∀ kv ∈ kvs, dq ∉ kv.1.data ∧ dq ∉ kv.2.data) :
    parseDataChars (dataChars kvs ++ rest) = some (kvs, rest) := by
  cases kvs with
  | nil => simp [dataChars, parseDataChars]
  | cons kv tl =>
    obtain ⟨hk, hv⟩ := hclean kv (List.mem_cons_self kv tl)
    have hcl : ∀ kv2 ∈ tl, dq ∉ kv2.1.data ∧ dq ∉ kv2.2.data :=
      fun kv2 hm => hclean kv2 (List.mem_cons_of_mem kv hm)
    simp only [dataChars, parseDataChars, pairChars, List.cons_append, List.append_assoc,
      List.nil_append, expects_cons_self, expects_nil]
    simp only [(by decide : ¬dq = rbrace), if_false]
    rw [parsePair_render kv.1 kv.2 _ hk hv]
    simp only [List.length_append]
    rw [parsePairsRest_render tl ((dataCharsRest tl).length + rest.length + 1) rest
      (by have := dataCharsRest_length tl; omega) hcl]

/-- `parseEntryChars` (the reader's `json.loads`) inverts `entryChars`
(the writer's `json.dumps`) on clean entries. -/
theorem parseEntryChars_render (e : AuditEntry)
    (h1 : dq ∉ e.timestamp.data) (h2 : dq ∉ e.session_id.data)
    (h3 : dq ∉ e.event_type.data)
    (h4 : ∀ kv ∈ e.data, dq ∉ kv.1.data ∧ dq ∉ kv.2.data) :
    parseEntryChars (entryChars e) = some e := by
  obtain ⟨ts, sid, pid, et, kvs⟩ := e
  simp only at h1 h2 h3 h4
  simp [parseEntryChars, entryChars, keyChars, List.append_assoc,
    takeUntilQuote_append, h1, h2, h3, parseNatNum_append, parseDataChars_render, h4,
    headDigit, (by decide : (',' : Char).isDigit = false)]
  rw [parseDataChars_render kvs [rbrace] h4]
  simp

/-- Stripping is the identity on a line that starts with an opening brace
and ends with a closing brace. -/
theorem pyStrip_brace_line (l : List Char) :
    pyStrip (String.mk (lbrace :: (l ++ [rbrace]))) = String.mk (lbrace :: (l ++ [rbrace])) := by
  unfold pyStrip
  have h1 : (lbrace :: (l ++ [rbrace])).dropWhile Char.isWhitespace =
      lbrace :: (l ++ [rbrace]) := by
    rw [List.dropWhile_cons]
    simp [(by decide : Char.isWhitespace lbrace = false)]
  rw [show (String.mk (lbrace :: (l ++ [rbrace]))).data = lbrace :: (l ++ [rbrace]) from rfl, h1]
  have h2 : (lbrace :: (l ++ [rbrace])).reverse = rbrace :: (l.reverse ++ [lbrace]) := by
    simp
  rw [h2, List.dropWhile_cons]
  simp [(by decide : Char.isWhitespace rbrace = false)]

/-- Stripping is the identity on a serialized audit entry. -/
theorem pyStrip_entry (e : AuditEntry) :
    pyStrip (json_dumps_entry e) = json_dumps_entry e := by
  obtain ⟨l, hl⟩ : ∃ l, entryChars e = lbrace :: (l ++ [rbrace]) := ⟨_, rfl⟩
  rw [json_dumps_entry, hl]
  exact pyStrip_brace_line l

/-- Recording a sequence of events appends one serialized line each, in
order. -/
theorem write_all_lines (lg : AuditLogger) (hen : lg.enabled = true) (evs : List AuditEventReq) :
    ∀ file : List String,
    write_all lg file evs = file ++ evs.map (fun ev => json_dumps_entry (entryOf lg ev)) := by
  induction evs with
  | nil =>
    intro file
    simp [write_all]
  | cons ev evs ih =>
    intro file
    show write_all lg (write_log lg file ev.now ev.pid ev.event_type ev.data) evs = _
    rw [ih]
    simp [write_log, hen, entryOf]

/-- Reading back the serialized lines of clean events recovers the
entries, in order. -/
theorem read_lines_map (lg : AuditLogger) (hsid : cleanStr lg.session_id = true)
    (evs : List AuditEventReq) (hclean : ∀ ev ∈ evs, cleanEvent ev = true) :
    (evs.map (fun ev => json_dumps_entry (entryOf lg ev))).filterMap
      (fun line => parseEntryChars (pyStrip line).data) = evs.map (entryOf lg) := by
  induction evs with
  | nil => rfl
  | cons ev evs ih =>
    have hev := hclean ev (List.mem_cons_self ev evs)
    have hcl : ∀ ev2 ∈ evs, cleanEvent ev2 = true :=
      fun ev2 hm => hclean ev2 (List.mem_cons_of_mem ev hm)
    rw [cleanEvent, Bool.and_eq_true, Bool.and_eq_true] at hev
    obtain ⟨⟨hnow, het⟩, hdata⟩ := hev
    have hparse : parseEntryChars (pyStrip (json_dumps_entry (entryOf lg ev))).data =
        some (entryOf lg ev) := by
      rw [pyStrip_entry]
      rw [show (json_dumps_entry (entryOf lg ev)).data = entryChars (entryOf lg ev) from rfl]
      exact parseEntryChars_render (entryOf lg ev) (cleanStr_not_mem hnow)
        (cleanStr_not_mem hsid) (cleanStr_not_mem het) (cleanData_forall hdata)
    simp only [List.map_cons, List.filterMap_cons, hparse]
    rw [ih hcl]

/-- C8: writing N events through `_write_log` into a fresh log and reading
it back yields exactly the N entries in order, field-for-field, and
filtering by event type `IOC_DETECTED` yields exactly the IoC entries
among them. -/
theorem C8_audit_roundtrip (lg : AuditLogger) (evs : List AuditEventReq)
    (hen : lg.enabled = true) (hsid : cleanStr lg.session_id = true)
    (hclean : ∀ ev ∈ evs, cleanEvent ev = true) :
    read_audit_log (write_all lg [] evs) none = evs.map (entryOf lg) ∧
    (read_audit_log (write_all lg [] evs) none).length = evs.length ∧
    search_audit_log (write_all lg [] evs) (some "IOC_DETECTED") none =
      (evs.map (entryOf lg)).filter (fun en => en.event_type == "IOC_DETECTED") := by
  have hread : read_audit_log (write_all lg [] evs) none = evs.map (entryOf lg) := by
    rw [write_all_lines lg hen evs []]
    simp only [List.nil_append]
    unfold read_audit_log
    exact read_lines_map lg hsid evs hclean
  refine ⟨hread, by rw [hread, List.length_map], ?_⟩
  unfold search_audit_log
  rw [hread]
  simp [(by decide : ¬("IOC_DETECTED" = ""))]

/-- Witness for C8: two concrete events, one of them an IoC, written into
a fresh log. -/
theorem C8_audit_roundtrip_witness :
    read_audit_log
      (write_all ⟨true, "42_1700"⟩ []
        [⟨"2026-01-01T00:00:00Z", 42, "blocked_import", [("module", "socket")]⟩,
         ⟨"2026-01-01T00:00:01Z", 42, "IOC_DETECTED", [("ioc_type", "print_statement")]⟩])
      none =
      [⟨"2026-01-01T00:00:00Z", "42_1700", 42, "blocked_import", [("module", "socket")]⟩,
       ⟨"2026-01-01T00:00:01Z", "42_1700", 42, "IOC_DETECTED", [("ioc_type", "print_statement")]⟩] ∧
    search_audit_log
      (write_all ⟨true, "42_1700"⟩ []
        [⟨"2026-01-01T00:00:00Z", 42, "blocked_import", [("module", "socket")]⟩,
         ⟨"2026-01-01T00:00:01Z", 42, "IOC_DETECTED", [("ioc_type", "print_statement")]⟩])
      (some "IOC_DETECTED") none =
      [⟨"2026-01-01T00:00:01Z", "42_1700", 42, "IOC_DETECTED",
        [("ioc_type", "print_statement")]⟩] := by
  have h := C8_audit_roundtrip ⟨true, "42_1700"⟩
    [⟨"2026-01-01T00:00:00Z", 42, "blocked_import", [("module", "socket")]⟩,
     ⟨"2026-01-01T00:00:01Z", 42, "IOC_DETECTED", [("ioc_type", "print_statement")]⟩]
    rfl (by decide) (by decide)
  exact ⟨h.1, h.2.2⟩

end Worm
